import Mathlib

/-!
Verification of the MTProto client core: a shallow embedding, in Lean 4, of
the session state machine (src/network/state.rs), the TCP-intermediate
transport framing (src/network/connection/tcp_intermediate.rs), the boxed
vector serializer (src/tl/vector.rs) and the handshake step 2 nonce check
(examples/auth.rs), together with theorems settling the specification's
claims about them.

Machine integers are modelled as `Int`/`Nat` with explicit two's-complement
wrapping (`i64wrap`, `i32wrap`) where the Rust release-mode semantics wraps.
Effects (the wall clock, the socket, randomness) are passed explicitly.
-/

namespace Mtproto

/-- Wall-clock reading, the result of chrono `Utc::now()`: `secs` is
`now.timestamp()` and `nanos` is `now.nanosecond()`. -/
structure Instant where
  secs : Int
  nanos : Nat
deriving DecidableEq

/-- Two's-complement wrap into the i64 range, the Rust release-mode
semantics of overflowing i64 arithmetic. -/
def i64wrap (x : Int) : Int := (x + 2 ^ 63) % 2 ^ 64 - 2 ^ 63

/-- Two's-complement wrap into the i32 range, the semantics of the Rust
cast `as i32`. -/
def i32wrap (x : Int) : Int := (x + 2 ^ 31) % 2 ^ 32 - 2 ^ 31

/-- Protocol version selector, from src/protocol.rs (MTProto 1.0 / 2.0). -/
inductive ProtocolVersion
  | V1
  | V2
deriving DecidableEq

/-- Message purpose, from src/network/state.rs: content messages must be
acknowledged, non-content messages must not perturb the ack parity. -/
inductive MessagePurpose
  | Content
  | NonContent
deriving DecidableEq

/-- Session state, from `State` in src/network/state.rs.  `id` is the random
session id chosen at creation, `seq_no` is the u32 sequence counter and
`last_msg_id` the last issued i64 message id. -/
structure State where
  id : Int
  auth_raw_key : List Nat
  time_offset : Int
  salt : Int
  seq_no : Nat
  last_msg_id : Int
  version : ProtocolVersion
deriving DecidableEq

/-- Constructor `State::new`: the random session id is passed explicitly. -/
def State.new (id : Int) (version : ProtocolVersion) : State :=
  { id := id
    auth_raw_key := List.replicate 256 0
    time_offset := 0
    salt := 0
    seq_no := 0
    last_msg_id := 0
    version := version }

/-- Candidate message id computed by `State::get_new_msg_id` before the
monotonicity correction: `(timestamp_server << 32) | (nano << 2)` on i64,
where `timestamp_server = now.timestamp() + time_offset`. -/
def candidate_msg_id (now : Instant) (s : State) : Int :=
  Int.lor (i64wrap ((now.secs + s.time_offset) * 2 ^ 32))
    (i64wrap ((now.nanos : Int) * 2 ^ 2))

/-- Embedding of `State::get_new_msg_id` (src/network/state.rs, lines
54-67): if the candidate is not strictly greater than `last_msg_id`, the
issued id is `last_msg_id + 4`; the issued id is stored back. -/
def get_new_msg_id (now : Instant) (s : State) : Int × State :=
  let new_msg_id :=
    if s.last_msg_id ≥ candidate_msg_id now s then i64wrap (s.last_msg_id + 4)
    else candidate_msg_id now s
  (new_msg_id, { s with last_msg_id := new_msg_id })

/-- Embedding of `State::next_seq_no` (src/network/state.rs, lines 77-88):
`Content` returns `seq_no * 2 + 1` and increments the u32 counter,
`NonContent` returns `seq_no * 2` and leaves it unchanged. -/
def next_seq_no (purpose : MessagePurpose) (s : State) : Nat × State :=
  match purpose with
  | .Content => ((s.seq_no * 2 + 1) % 2 ^ 32, { s with seq_no := (s.seq_no + 1) % 2 ^ 32 })
  | .NonContent => ((s.seq_no * 2) % 2 ^ 32, s)

/-- Embedding of `State::update_time_offset` (src/network/state.rs, lines
69-75): `correct_msg_id >> 32` is the i64 arithmetic shift (floor division
by `2 ^ 32`), the subtraction result is cast `as i32`, and `last_msg_id` is
reset to zero.  The wall clock is passed explicitly. -/
def update_time_offset (correct_msg_id : Int) (now_secs : Int) (s : State) : Int × State :=
  let correct_timestamp := correct_msg_id / 2 ^ 32
  let off := i32wrap (correct_timestamp - now_secs)
  (off, { s with time_offset := off, last_msg_id := 0 })

/-- Modelled from the spec (§9, sign-bit note): the upper 32 bits of
`correct_msg_id` interpreted as an unsigned seconds-since-epoch value,
obtained from the 64-bit two's-complement pattern of the id. -/
def spec_upper_unsigned (correct_msg_id : Int) : Int :=
  (correct_msg_id % 2 ^ 64) / 2 ^ 32

/-- Modelled from the spec (§4.3, §9): the time offset prescribed by the
spec, interpreting the upper 32 bits as unsigned and casting to signed only
after the subtraction. -/
def spec_time_offset (correct_msg_id : Int) (now_secs : Int) : Int :=
  i32wrap (spec_upper_unsigned correct_msg_id - now_secs)

theorem i64wrap_eq_self {x : Int} (h1 : -2 ^ 63 ≤ x) (h2 : x < 2 ^ 63) :
    i64wrap x = x := by
  unfold i64wrap
  omega

/-- With a non-negative server timestamp below 2^31 and a nanosecond count
below 2^30 the two shifted fields occupy disjoint bit ranges, so the
bitwise or in `get_new_msg_id` is an addition. -/
theorem candidate_msg_id_eq (now : Instant) (s : State)
    (ha : 0 ≤ now.secs + s.time_offset) (hb : now.secs + s.time_offset < 2 ^ 31)
    (hn : now.nanos < 2 ^ 30) :
    candidate_msg_id now s = (now.secs + s.time_offset) * 2 ^ 32 + 4 * now.nanos := by
  have hm : (((now.secs + s.time_offset).toNat : Int)) = now.secs + s.time_offset :=
    Int.toNat_of_nonneg ha
  unfold candidate_msg_id
  rw [i64wrap_eq_self (by omega) (by omega), i64wrap_eq_self (by omega) (by omega), ← hm]
  have h1 : (((now.secs + s.time_offset).toNat : Int)) * 2 ^ 32 =
      ((2 ^ 32 * (now.secs + s.time_offset).toNat : Nat) : Int) := by
    push_cast
    ring
  have h2 : ((now.nanos : Int)) * 2 ^ 2 = ((2 ^ 2 * now.nanos : Nat) : Int) := by
    push_cast
    ring
  rw [h1, h2]
  have h3 : Int.lor ((2 ^ 32 * (now.secs + s.time_offset).toNat : Nat) : Int)
        ((2 ^ 2 * now.nanos : Nat) : Int) =
      (((2 ^ 32 * (now.secs + s.time_offset).toNat) ||| (2 ^ 2 * now.nanos) : Nat) : Int) := rfl
  rw [h3, ← Nat.mul_add_lt_is_or (by omega) (now.secs + s.time_offset).toNat]
  push_cast
  ring

/-- Behaviour of one `get_new_msg_id` call on an in-range state under a
realistic clock: the issued id strictly exceeds the stored one, stays below
the parametric bound `B + 4`, preserves divisibility by four, and is stored
back while every other field is kept. -/
theorem get_new_msg_id_spec (now : Instant) (s : State) (B : Int)
    (ha : 0 ≤ now.secs + s.time_offset) (hb : now.secs + s.time_offset < 2 ^ 31 - 1)
    (hn : now.nanos < 2 ^ 30)
    (hl0 : 0 ≤ s.last_msg_id) (hlB : s.last_msg_id ≤ B)
    (hB1 : 2 ^ 63 - 2 ^ 32 - 4 ≤ B + 4) (hB2 : B + 4 ≤ 2 ^ 63 - 4) :
    s.last_msg_id < (get_new_msg_id now s).1 ∧
    (get_new_msg_id now s).1 ≤ B + 4 ∧
    (s.last_msg_id % 4 = 0 → (get_new_msg_id now s).1 % 4 = 0) ∧
    0 ≤ (get_new_msg_id now s).1 ∧
    (get_new_msg_id now s).2.time_offset = s.time_offset ∧
    (get_new_msg_id now s).2.last_msg_id = (get_new_msg_id now s).1 := by
  have hc := candidate_msg_id_eq now s ha (by omega) hn
  unfold get_new_msg_id
  simp only [hc]
  by_cases h : s.last_msg_id ≥ (now.secs + s.time_offset) * 2 ^ 32 + 4 * now.nanos
  · simp only [if_pos h]
    rw [i64wrap_eq_self (by omega) (by omega)]
    refine ⟨by omega, by omega, by omega, by omega, by trivial, by trivial⟩
  · simp only [if_neg h]
    refine ⟨by omega, by omega, by omega, by omega, by trivial, by trivial⟩

/-- C1: for every SessionState and every pair of successive
`get_new_msg_id` calls returning `a` then `b` on the same state, `b` is
strictly greater than `a` and `b` is divisible by 4.  The hypotheses keep
the i64 arithmetic of the source away from overflow: the stored id is
non-negative, divisible by four (both hold in every state the API can
reach) and within the i64 range, and both wall-clock readings are
realistic (server timestamp in `[0, 2^31 - 1)`, nanosecond field below
`2^30`). -/
theorem claim_C1 (s : State) (t1 t2 : Instant)
    (hl0 : 0 ≤ s.last_msg_id) (hl4 : s.last_msg_id % 4 = 0)
    (hlB : s.last_msg_id ≤ 2 ^ 63 - 12)
    (h1a : 0 ≤ t1.secs + s.time_offset) (h1b : t1.secs + s.time_offset < 2 ^ 31 - 1)
    (h1n : t1.nanos < 2 ^ 30)
    (h2a : 0 ≤ t2.secs + s.time_offset) (h2b : t2.secs + s.time_offset < 2 ^ 31 - 1)
    (h2n : t2.nanos < 2 ^ 30) :
    (get_new_msg_id t1 s).1 < (get_new_msg_id t2 (get_new_msg_id t1 s).2).1 ∧
    (get_new_msg_id t2 (get_new_msg_id t1 s).2).1 % 4 = 0 := by
  obtain ⟨ha1, ha2, ha3, ha4, hoff, hlast⟩ :=
    get_new_msg_id_spec t1 s (2 ^ 63 - 12) h1a h1b h1n hl0 hlB (by norm_num) (by norm_num)
  obtain ⟨hb1, hb2, hb3, hb4, _, _⟩ :=
    get_new_msg_id_spec t2 (get_new_msg_id t1 s).2 (2 ^ 63 - 8)
      (by rw [hoff]; exact h2a) (by rw [hoff]; exact h2b) h2n
      (by rw [hlast]; exact ha4) (by rw [hlast]; omega) (by norm_num) (by norm_num)
  rw [hlast] at hb1 hb3
  exact ⟨hb1, hb3 (ha3 hl4)⟩

/-- C2: the candidate id is `(unix_seconds + time_offset) << 32 | (nano <<
2)`; when the candidate is not strictly greater than the stored id the call
returns `last_msg_id + 4` instead.  At wall clock `t = 1_600_000_000 s` and
`250 ms` with `time_offset = 0` a fresh state yields `(1_600_000_000 << 32)
||| (250_000_000 << 2)`, and a second call within the same nanosecond
yields the previous value plus 4. -/
theorem claim_C2 :
    (∀ (t : Instant) (s : State), candidate_msg_id t s ≤ s.last_msg_id →
      -2 ^ 63 ≤ s.last_msg_id → s.last_msg_id + 4 < 2 ^ 63 →
      (get_new_msg_id t s).1 = s.last_msg_id + 4) ∧
    (get_new_msg_id ⟨1600000000, 250000000⟩ (State.new 0 .V1)).1 =
      ((1600000000 <<< 32) ||| (250000000 <<< 2) : Nat) ∧
    (get_new_msg_id ⟨1600000000, 250000000⟩
        (get_new_msg_id ⟨1600000000, 250000000⟩ (State.new 0 .V1)).2).1 =
      ((1600000000 <<< 32) ||| (250000000 <<< 2) : Nat) + 4 := by
  refine ⟨?_, by decide, by decide⟩
  intro t s h h1 h2
  unfold get_new_msg_id
  rw [if_pos (ge_iff_le.mpr h)]
  exact i64wrap_eq_self (by omega) (by omega)

/-- Witness for C2: on the state produced by the first call at the fixed
wall clock, the candidate is not strictly greater than the stored id, and
the second call indeed returns the stored id plus 4. -/
theorem claim_C2_witness :
    (get_new_msg_id ⟨1600000000, 250000000⟩
        (get_new_msg_id ⟨1600000000, 250000000⟩ (State.new 0 ProtocolVersion.V1)).2).1 =
      ((get_new_msg_id ⟨1600000000, 250000000⟩ (State.new 0 ProtocolVersion.V1)).2).last_msg_id
        + 4 :=
  claim_C2.1 ⟨1600000000, 250000000⟩
    (get_new_msg_id ⟨1600000000, 250000000⟩ (State.new 0 ProtocolVersion.V1)).2
    (by decide) (by decide) (by decide)

/-- Sequence of `next_seq_no` calls: runs the listed purposes left to right
on the state, collecting the returned sequence numbers. -/
def runSeq : List MessagePurpose → State → List Nat × State
  | [], s => ([], s)
  | p :: ps, s =>
    let r := next_seq_no p s
    let rest := runSeq ps r.2
    (r.1 :: rest.1, rest.2)

/-- Alternating purpose list of `n` NonContent/Content pairs. -/
def altList : Nat → List MessagePurpose
  | 0 => []
  | n + 1 => .NonContent :: .Content :: altList n

/-- Closed form of the values returned by `n` alternating
NonContent/Content pairs starting from counter `k`. -/
def interleaved (k : Nat) : Nat → List Nat
  | 0 => []
  | n + 1 => 2 * k :: (2 * k + 1) :: interleaved (k + 1) n

theorem runSeq_altList (n : Nat) : ∀ s : State, 2 * (s.seq_no + n) < 2 ^ 32 →
    runSeq (altList n) s = (interleaved s.seq_no n, { s with seq_no := s.seq_no + n }) := by
  induction n with
  | zero =>
    intro s _
    simp [runSeq, altList, interleaved]
  | succ n ih =>
    intro s h
    have h1 : s.seq_no * 2 % 2 ^ 32 = 2 * s.seq_no := by omega
    have h2 : (s.seq_no * 2 + 1) % 2 ^ 32 = 2 * s.seq_no + 1 := by omega
    have h3 : (s.seq_no + 1) % 2 ^ 32 = s.seq_no + 1 := by omega
    have ih2 := ih { s with seq_no := s.seq_no + 1 } (by simp; omega)
    simp only [altList, runSeq, next_seq_no, h1, h2, h3, interleaved, ih2]
    have e : s.seq_no + 1 + n = s.seq_no + (n + 1) := by omega
    rw [e]

theorem interleaved_getElem (n : Nat) : ∀ k i : Nat, i < n →
    (interleaved k n)[2 * i]? = some (2 * (k + i)) ∧
    (interleaved k n)[2 * i + 1]? = some (2 * (k + i) + 1) := by
  induction n with
  | zero =>
    intro k i hi
    omega
  | succ n ih =>
    intro k i hi
    match i with
    | 0 => simp [interleaved]
    | j + 1 =>
      have hj := ih (k + 1) j (by omega)
      have e1 : 2 * (j + 1) = (2 * j + 1) + 1 := by omega
      rw [e1]
      simp only [interleaved, List.getElem?_cons_succ]
      have e3 : k + (j + 1) = (k + 1) + j := by omega
      rw [e3]
      exact hj

/-- C3: `next_seq_no` with `Content` returns `counter * 2 + 1` and
increments the counter; with `NonContent` it returns `counter * 2` and
leaves the counter unchanged.  Along any alternating NonContent/Content
run on one state (no u32 wrap, hence the bound on the counter) the
Content results sit at the odd positions and equal `2 * (counter + i) +
1`: they are strictly increasing odd numbers, and each NonContent result
`2 * (counter + i)` equals the next Content result minus one. -/
theorem claim_C3 (n : Nat) (s : State) (h : 2 * (s.seq_no + n) < 2 ^ 32) (i j : Nat) :
    next_seq_no .Content s = ((s.seq_no * 2 + 1) % 2 ^ 32, { s with seq_no := (s.seq_no + 1) % 2 ^ 32 }) ∧
    next_seq_no .NonContent s = ((s.seq_no * 2) % 2 ^ 32, s) ∧
    (runSeq (altList n) s).2.seq_no = s.seq_no + n ∧
    (i < n →
      ((runSeq (altList n) s).1)[2 * i]? = some (2 * (s.seq_no + i)) ∧
      ((runSeq (altList n) s).1)[2 * i + 1]? = some (2 * (s.seq_no + i) + 1) ∧
      (2 * (s.seq_no + i) + 1) % 2 = 1 ∧
      2 * (s.seq_no + i) = (2 * (s.seq_no + i) + 1) - 1) ∧
    (i < j → j < n → 2 * (s.seq_no + i) + 1 < 2 * (s.seq_no + j) + 1) := by
  have hr := runSeq_altList n s h
  refine ⟨rfl, rfl, ?_, ?_, ?_⟩
  · rw [hr]
  · intro hi
    have hg := interleaved_getElem n s.seq_no i hi
    rw [hr]
    exact ⟨hg.1, hg.2, by omega, by omega⟩
  · intro hij hj
    omega

/-- Witness for C3: two alternating pairs on a fresh state. -/
theorem claim_C3_witness :
    next_seq_no .Content (State.new 0 ProtocolVersion.V1) =
      (((State.new 0 ProtocolVersion.V1).seq_no * 2 + 1) % 2 ^ 32,
        { State.new 0 ProtocolVersion.V1 with
          seq_no := ((State.new 0 ProtocolVersion.V1).seq_no + 1) % 2 ^ 32 }) ∧
    next_seq_no .NonContent (State.new 0 ProtocolVersion.V1) =
      (((State.new 0 ProtocolVersion.V1).seq_no * 2) % 2 ^ 32, State.new 0 ProtocolVersion.V1) ∧
    (runSeq (altList 2) (State.new 0 ProtocolVersion.V1)).2.seq_no =
      (State.new 0 ProtocolVersion.V1).seq_no + 2 ∧
    (0 < 2 →
      ((runSeq (altList 2) (State.new 0 ProtocolVersion.V1)).1)[2 * 0]? =
        some (2 * ((State.new 0 ProtocolVersion.V1).seq_no + 0)) ∧
      ((runSeq (altList 2) (State.new 0 ProtocolVersion.V1)).1)[2 * 0 + 1]? =
        some (2 * ((State.new 0 ProtocolVersion.V1).seq_no + 0) + 1) ∧
      (2 * ((State.new 0 ProtocolVersion.V1).seq_no + 0) + 1) % 2 = 1 ∧
      2 * ((State.new 0 ProtocolVersion.V1).seq_no + 0) =
        (2 * ((State.new 0 ProtocolVersion.V1).seq_no + 0) + 1) - 1) ∧
    (0 < 1 → 1 < 2 →
      2 * ((State.new 0 ProtocolVersion.V1).seq_no + 0) + 1 <
        2 * ((State.new 0 ProtocolVersion.V1).seq_no + 1) + 1) :=
  claim_C3 2 (State.new 0 ProtocolVersion.V1) (by decide) 0 1

/-- C10: `update_time_offset` modifies only `time_offset` and
`last_msg_id`; the session id, auth key, salt, sequence counter and
protocol version are unchanged, the new `last_msg_id` is zero and the
returned value equals the newly stored `time_offset`. -/
theorem claim_C10 (correct_msg_id now_secs : Int) (s : State) :
    (update_time_offset correct_msg_id now_secs s).2.id = s.id ∧
    (update_time_offset correct_msg_id now_secs s).2.auth_raw_key = s.auth_raw_key ∧
    (update_time_offset correct_msg_id now_secs s).2.salt = s.salt ∧
    (update_time_offset correct_msg_id now_secs s).2.seq_no = s.seq_no ∧
    (update_time_offset correct_msg_id now_secs s).2.version = s.version ∧
    (update_time_offset correct_msg_id now_secs s).2.last_msg_id = 0 ∧
    (update_time_offset correct_msg_id now_secs s).1 =
      (update_time_offset correct_msg_id now_secs s).2.time_offset :=
  ⟨rfl, rfl, rfl, rfl, rfl, rfl, rfl⟩

/-- Counterexample for C5 as stated: at wall clock 1_600_000_000 s,
`update_time_offset 0x5F5E1000_00000000` stores a time offset of 0 (the
upper 32 bits are 0x5F5E1000 = 1_600_000_000 exactly), not the claimed
-16_777_216. -/
theorem claim_C5_counterexample :
    (update_time_offset 0x5F5E100000000000 1600000000 (State.new 0 ProtocolVersion.V1)).1 = 0 ∧
    (update_time_offset 0x5F5E100000000000 1600000000 (State.new 0 ProtocolVersion.V1)).1 ≠
      -16777216 := by
  constructor
  · decide
  · decide

/-- C5 (amended): for every `correct_msg_id` in the i64 range,
`update_time_offset` stores exactly the spec-mandated value — the upper 32
bits of the id interpreted as unsigned seconds minus the current unix
seconds, cast to signed i32 only after the subtraction — and resets
`last_msg_id` to zero; at wall clock 1_600_000_000 s the input
0x5F5E1000_00000000 yields time offset 0 (not -16_777_216: the claimed
example value contradicts its own subtraction). -/
theorem claim_C5 (correct_msg_id now_secs : Int) (s : State)
    (_h1 : -2 ^ 63 ≤ correct_msg_id) (_h2 : correct_msg_id < 2 ^ 63) :
    (update_time_offset correct_msg_id now_secs s).1 = spec_time_offset correct_msg_id now_secs ∧
    (update_time_offset correct_msg_id now_secs s).2.time_offset =
      spec_time_offset correct_msg_id now_secs ∧
    (update_time_offset correct_msg_id now_secs s).2.last_msg_id = 0 ∧
    (update_time_offset 0x5F5E100000000000 1600000000 (State.new 0 ProtocolVersion.V1)).1 = 0 := by
    refine ⟨?_, ?_, rfl, by decide⟩ <;>
    · show i32wrap (correct_msg_id / 2 ^ 32 - now_secs) =
        i32wrap (spec_upper_unsigned correct_msg_id - now_secs)
      unfold i32wrap spec_upper_unsigned
      omega

/-- Witness for C5: the amended claim at the concrete input of the
specification's example. -/
theorem claim_C5_witness :
    (update_time_offset 0x5F5E100000000000 1600000000 (State.new 0 ProtocolVersion.V1)).1 =
      spec_time_offset 0x5F5E100000000000 1600000000 ∧
    (update_time_offset 0x5F5E100000000000 1600000000 (State.new 0 ProtocolVersion.V1)).2.time_offset =
      spec_time_offset 0x5F5E100000000000 1600000000 ∧
    (update_time_offset 0x5F5E100000000000 1600000000
        (State.new 0 ProtocolVersion.V1)).2.last_msg_id = 0 ∧
    (update_time_offset 0x5F5E100000000000 1600000000 (State.new 0 ProtocolVersion.V1)).1 = 0 :=
  claim_C5 0x5F5E100000000000 1600000000 (State.new 0 ProtocolVersion.V1) (by decide) (by decide)

/-- Witness for C1: two calls on a fresh state at a concrete clock. -/
theorem claim_C1_witness :
    (get_new_msg_id ⟨100, 0⟩ (State.new 0 ProtocolVersion.V1)).1 <
      (get_new_msg_id ⟨100, 0⟩ (get_new_msg_id ⟨100, 0⟩ (State.new 0 ProtocolVersion.V1)).2).1 ∧
    (get_new_msg_id ⟨100, 0⟩
        (get_new_msg_id ⟨100, 0⟩ (State.new 0 ProtocolVersion.V1)).2).1 % 4 = 0 :=
  claim_C1 (State.new 0 ProtocolVersion.V1) ⟨100, 0⟩ ⟨100, 0⟩ (by decide) (by decide)
    (by decide) (by decide) (by decide) (by decide) (by decide) (by decide) (by decide)

/-- Little-endian 4-byte encoding of a u32 value, the effect of
byteorder `LittleEndian::write_u32`. -/
def le32 (n : Nat) : List Nat :=
  [n % 256, n / 256 % 256, n / 65536 % 256, n / 16777216 % 256]

/-- Preamble written once per fresh TCP-intermediate connection,
`b"\xee\xee\xee\xee"` in `perform_request`. -/
def intermediate_preamble : List Nat := [0xee, 0xee, 0xee, 0xee]

/-- Transport-level errors surfaced by `perform_request`. -/
inductive TransportError
  | messageTooLong (size : Nat)
deriving DecidableEq

/-- Framing part of `perform_request` (tcp_intermediate.rs, lines
124-152): serialized payload bytes are framed as a 4-byte little-endian
length followed by the payload, the whole prefixed with the preamble on the
first request of the connection (which clears `is_first_request`); a
payload longer than 0xFFFFFFFF bytes fails with `MessageTooLong` before
anything is written.  Returns the bytes written and the new
`is_first_request` flag. -/
def frame (payload : List Nat) (is_first_request : Bool) :
    Except TransportError (List Nat × Bool) :=
  let size := payload.length
  if size ≤ 0xffffffff then
    let data := le32 size ++ payload
    if is_first_request then .ok (intermediate_preamble ++ data, false)
    else .ok (data, is_first_request)
  else .error (.messageTooLong size)

/-- Sequence of `frame` calls on one connection, threading the
`is_first_request` flag and concatenating the bytes put on the socket. -/
def frames : List (List Nat) → Bool → Except TransportError (List Nat × Bool)
  | [], first => .ok ([], first)
  | p :: ps, first =>
    match frame p first with
    | .error e => .error e
    | .ok (bs, f1) =>
      match frames ps f1 with
      | .error e => .error e
      | .ok (rest, f2) => .ok (bs ++ rest, f2)

/-- Byte image of one framed packet: 4-byte little-endian length of the
payload followed by the payload. -/
def packet_bytes (p : List Nat) : List Nat := le32 p.length ++ p

theorem frames_not_first (ps : List (List Nat)) (h : ∀ p ∈ ps, p.length ≤ 0xffffffff) :
    frames ps false = .ok ((ps.map packet_bytes).flatten, false) := by
  induction ps with
  | nil => rfl
  | cons p ps ih =>
    have hp : p.length ≤ 0xffffffff := h p (by simp)
    have hrest := ih (fun q hq => h q (by simp [hq]))
    simp only [frames, frame, if_pos hp, if_neg (Bool.false_ne_true ∘ id), hrest]
    simp [packet_bytes]

/-- C6: on a fresh TCP-intermediate connection the 4-byte preamble
`EE EE EE EE` is sent exactly once, before the first framed packet, and
every framed packet is a 4-byte little-endian payload length followed by
the payload; framing an empty payload yields `EE EE EE EE 00 00 00 00` on
a fresh connection and `00 00 00 00` on a subsequent call. -/
theorem claim_C6 :
    (∀ ps : List (List Nat), (∀ p ∈ ps, p.length ≤ 0xffffffff) → ps ≠ [] →
      frames ps true = .ok (intermediate_preamble ++ (ps.map packet_bytes).flatten, false)) ∧
    frame [] true = .ok ([0xee, 0xee, 0xee, 0xee, 0, 0, 0, 0], false) ∧
    frame [] false = .ok ([0, 0, 0, 0], false) := by
  refine ⟨?_, rfl, rfl⟩
  intro ps h hne
  match ps with
  | p :: ps =>
    have hp : p.length ≤ 0xffffffff := h p (by simp)
    have hrest := frames_not_first ps (fun q hq => h q (by simp [hq]))
    simp only [frames, frame, if_pos hp, if_true, hrest]
    simp [packet_bytes]

/-- Witness for C6: a fresh connection sending one empty payload emits the
preamble followed by the zero-length frame. -/
theorem claim_C6_witness :
    frames [[]] true =
      .ok (intermediate_preamble ++ (([] : List (List Nat)).map packet_bytes).flatten ++
        packet_bytes [], false) := by
  have h := claim_C6.1 [[]] (by simp) (by simp)
  simpa using h

/-- C7: framing a message whose serialized size exceeds 0xFFFFFFFF bytes
fails with `MessageTooLong` carrying the offending size, and nothing is
written; any size up to 0xFFFFFFFF frames successfully. -/
theorem claim_C7 (p : List Nat) (first : Bool) :
    (0xffffffff < p.length → frame p first = .error (.messageTooLong p.length)) ∧
    (p.length ≤ 0xffffffff → (frame p first).isOk = true) := by
  constructor
  · intro h
    unfold frame
    rw [if_neg (by omega)]
  · intro h
    unfold frame
    rw [if_pos h]
    cases first <;> rfl

/-- Witness for C7: a payload of 2^32 bytes is rejected with
`MessageTooLong 2^32`; the empty payload frames successfully. -/
theorem claim_C7_witness :
    frame (List.replicate 4294967296 0) true =
      .error (.messageTooLong (List.replicate 4294967296 0).length) ∧
    (frame ([] : List Nat) false).isOk = true :=
  ⟨(claim_C7 (List.replicate 4294967296 0) true).1
      (by rw [List.length_replicate]; norm_num),
    (claim_C7 [] false).2 (by norm_num)⟩

/-- Message envelope metadata placed into a message by
`State::create_message` (salt, session id, message id, sequence number). -/
structure Envelope where
  salt : Int
  session_id : Int
  message_id : Int
  seq_no : Nat
deriving DecidableEq

/-- Errors of the request pipeline `impl_request` / `perform_request`. -/
inductive ReqError
  | createFailed
  | toRawFailed
  | messageTooLong (size : Nat)
  | ioWrite
  | ioRead
  | parseFailed
deriving DecidableEq

/-- Embedding of `State::create_message` (src/network/state.rs, lines
39-46): draws a message id, then a sequence number, and builds the message
envelope; `M::new` is fallible, modelled by the `mnewOk` flag. -/
def create_message (mnewOk : Bool) (t : Instant) (purpose : MessagePurpose) (s : State) :
    Except ReqError (Envelope × State) :=
  let message_id := (get_new_msg_id t s).1
  let s1 := (get_new_msg_id t s).2
  let seq_no := (next_seq_no purpose s1).1
  let s2 := (next_seq_no purpose s1).2
  if mnewOk then
    .ok ({ salt := s.salt, session_id := s.id, message_id := message_id, seq_no := seq_no }, s2)
  else .error .createFailed

/-- Outcomes of the effectful steps of one request, passed explicitly:
whether `M::new` and `to_raw` succeed, the serialized size, whether the
socket write succeeds, the bytes read back (`none` is a read failure), and
whether `parse_response` succeeds. -/
structure NetOracle where
  mnewOk : Bool
  toRawOk : Bool
  sizeOf : Nat
  writeOk : Bool
  readResp : Option (List Nat)
  parseOk : Bool
deriving DecidableEq

/-- Embedding of `ConnectionTcpIntermediate::impl_request` together with
`perform_request` (tcp_intermediate.rs, lines 59-82 and 124-162): build the
message (consuming a message id and a sequence number), serialize it,
check the frame size, write, read, parse.  Socket and serializer behaviour
comes from the oracle; `parse_response` (tcp_common, outside src/) is
modelled as a pure check.  The result pairs the Rust future's outcome —
the updated state is returned only on success — with the list of envelopes
that were actually written to the socket. -/
def impl_request (o : NetOracle) (t : Instant) (purpose : MessagePurpose) (s : State) :
    Except ReqError (State × List Nat) × List Envelope :=
  match create_message o.mnewOk t purpose s with
  | .error e => (.error e, [])
  | .ok (env, s2) =>
    if o.toRawOk then
      if o.sizeOf ≤ 0xffffffff then
        if o.writeOk then
          match o.readResp with
          | none => (.error .ioRead, [env])
          | some resp =>
            if o.parseOk then (.ok (s2, resp), [env])
            else (.error .parseFailed, [env])
        else (.error .ioWrite, [])
      else (.error (.messageTooLong o.sizeOf), [])
    else (.error .toRawFailed, [])

/-- State available to the caller after a request: the Rust future yields
the threaded-through `State` only on success, so after a failure the only
session state a caller can continue from is the one it held before the
call. -/
def caller_state_after (r : Except ReqError (State × List Nat)) (before : State) : State :=
  match r with
  | .ok (s1, _) => s1
  | .error _ => before

/-- C4: if `request_plain`/`request` on a TCP-intermediate connection
fails at any step, the caller's message-id state is the pre-call state, so
the next id issued after the failure is the id that would have been issued
had the failed call never happened; by contrast, any envelope that reached
the socket — even on a request that subsequently failed — carries the
sequence number and message id consumed at envelope construction time. -/
theorem claim_C4 (o : NetOracle) (t : Instant) (purpose : MessagePurpose) (s : State) :
    (∀ e, (impl_request o t purpose s).1 = .error e →
      caller_state_after (impl_request o t purpose s).1 s = s ∧
      ∀ t' : Instant,
        (get_new_msg_id t' (caller_state_after (impl_request o t purpose s).1 s)).1 =
          (get_new_msg_id t' s).1) ∧
    (∀ env, env ∈ (impl_request o t purpose s).2 →
      env.seq_no = (next_seq_no purpose (get_new_msg_id t s).2).1 ∧
      env.message_id = (get_new_msg_id t s).1) := by
  constructor
  · intro e h
    have hc : caller_state_after (impl_request o t purpose s).1 s = s := by
      rw [h]
      rfl
    exact ⟨hc, fun t' => by rw [hc]⟩
  · intro env henv
    obtain ⟨mnewOk, toRawOk, sizeOf, writeOk, readResp, parseOk⟩ := o
    by_cases hsz : sizeOf ≤ 0xffffffff <;>
      cases mnewOk <;> cases toRawOk <;> cases writeOk <;> cases parseOk <;>
      cases readResp <;>
      simp [impl_request, create_message, hsz] at henv <;>
      (try subst henv) <;> exact ⟨rfl, rfl⟩

/-- Oracle for the C4 witness: every step succeeds until the socket read,
which fails. -/
def oracleW : NetOracle :=
  { mnewOk := true, toRawOk := true, sizeOf := 0, writeOk := true,
    readResp := none, parseOk := true }

/-- Witness for C4: a request that fails at the read step leaves the
caller on its pre-call state, and the envelope that reached the socket
carries the sequence number and message id consumed at construction. -/
theorem claim_C4_witness :
    (caller_state_after
        (impl_request oracleW ⟨0, 0⟩ .Content (State.new 0 ProtocolVersion.V1)).1
        (State.new 0 ProtocolVersion.V1) = State.new 0 ProtocolVersion.V1 ∧
      (get_new_msg_id ⟨0, 0⟩
          (caller_state_after
            (impl_request oracleW ⟨0, 0⟩ .Content (State.new 0 ProtocolVersion.V1)).1
            (State.new 0 ProtocolVersion.V1))).1 =
        (get_new_msg_id ⟨0, 0⟩ (State.new 0 ProtocolVersion.V1)).1) ∧
    ((⟨0, 0, 4, 1⟩ : Envelope).seq_no =
        (next_seq_no .Content
          (get_new_msg_id ⟨0, 0⟩ (State.new 0 ProtocolVersion.V1)).2).1 ∧
      (⟨0, 0, 4, 1⟩ : Envelope).message_id =
        (get_new_msg_id ⟨0, 0⟩ (State.new 0 ProtocolVersion.V1)).1) :=
  ⟨by
    have h :=
      (claim_C4 oracleW ⟨0, 0⟩ .Content (State.new 0 ProtocolVersion.V1)).1 .ioRead (by rfl)
    exact ⟨h.1, h.2 ⟨0, 0⟩⟩,
    (claim_C4 oracleW ⟨0, 0⟩ .Content (State.new 0 ProtocolVersion.V1)).2
      ⟨0, 0, 4, 1⟩ (by decide)⟩

/-- Response to `req_pq`, the `ResPQ` schema object received in handshake
step 1 (examples/auth.rs); nonces are i128 values. -/
structure ResPQ where
  nonce : Int
  server_nonce : Int
  pq : List Nat
  server_public_key_fingerprints : List Int
deriving DecidableEq

/-- Errors of handshake step 2 (examples/auth.rs error kinds plus the
failure modes of the crypto collaborators). -/
inductive AuthStepError
  | nonceMismatch (expected found : Int)
  | decomposeFailed
  | noKnownFingerprint
  | encryptFailed
deriving DecidableEq

/-- Inner proof-of-work payload `p_q_inner_data` built in step 2. -/
structure PQInnerData where
  pq : List Nat
  p : List Nat
  q : List Nat
  nonce : Int
  server_nonce : Int
  new_nonce : Int
deriving DecidableEq

/-- DH parameter request `req_DH_params` sent at the end of step 2. -/
structure ReqDHParams where
  nonce : Int
  server_nonce : Int
  p : List Nat
  q : List Nat
  public_key_fingerprint : Int
  encrypted_data : List Nat
deriving DecidableEq

/-- Big-endian u64 read of the first 8 bytes, byteorder
`BigEndian::read_u64`. -/
def bigEndianReadU64 (b : List Nat) : Nat :=
  (b.take 8).foldl (fun acc x => acc * 256 + x) 0

/-- Big-endian 4-byte image of a u32, the `u32_to_vec` closure of step 2. -/
def u32_to_vec (n : Nat) : List Nat :=
  [n / 16777216 % 256, n / 65536 % 256, n / 256 % 256, n % 256]

/-- Embedding of `auth_step2` (examples/auth.rs, lines 116-189): validate
the returned client nonce against the sent one, then decompose pq, build
and serialize `p_q_inner_data`, pick the first known server key, RSA
encrypt, and produce the `req_DH_params` request that is subsequently
sent.  The crypto collaborators (`asymm::decompose_pq`,
`asymm::find_first_key_fail_safe`, RSA encryption, serde serialization)
live outside src/ and are passed as oracles; the step's own logic is from
the source. -/
def auth_step2 (decompose_pq : Nat → Except AuthStepError (Nat × Nat))
    (find_first_key : List Int → Except AuthStepError (Int × Int))
    (encrypt : Int → List Nat → Except AuthStepError (List Nat))
    (serializeInner : PQInnerData → List Nat)
    (new_nonce : Int) (sentNonce : Int) (res_pq : ResPQ) :
    Except AuthStepError ReqDHParams :=
  if sentNonce ≠ res_pq.nonce then .error (.nonceMismatch sentNonce res_pq.nonce)
  else
    match decompose_pq (bigEndianReadU64 res_pq.pq) with
    | .error e => .error e
    | .ok (p_u32, q_u32) =>
      let p := u32_to_vec p_u32
      let q := u32_to_vec q_u32
      let inner : PQInnerData :=
        { pq := res_pq.pq, p := p, q := q, nonce := res_pq.nonce,
          server_nonce := res_pq.server_nonce, new_nonce := new_nonce }
      match find_first_key res_pq.server_public_key_fingerprints with
      | .error e => .error e
      | .ok (key, fingerprint) =>
        match encrypt key (serializeInner inner) with
        | .error e => .error e
        | .ok encrypted_data =>
          .ok { nonce := res_pq.nonce, server_nonce := res_pq.server_nonce, p := p, q := q,
                public_key_fingerprint := fingerprint, encrypted_data := encrypted_data }

/-- C8: in handshake step 1/2, if the client nonce returned by the server
differs from the nonce the client sent, the handshake fails with
`NonceMismatch` carrying the expected and found nonces — whatever the pq
decomposition, key lookup and encryption would do: none of them runs and
no `req_DH_params` request is produced. -/
theorem claim_C8 (decompose_pq : Nat → Except AuthStepError (Nat × Nat))
    (find_first_key : List Int → Except AuthStepError (Int × Int))
    (encrypt : Int → List Nat → Except AuthStepError (List Nat))
    (serializeInner : PQInnerData → List Nat)
    (new_nonce sentNonce : Int) (res_pq : ResPQ)
    (h : sentNonce ≠ res_pq.nonce) :
    auth_step2 decompose_pq find_first_key encrypt serializeInner new_nonce sentNonce res_pq =
      .error (.nonceMismatch sentNonce res_pq.nonce) := by
  unfold auth_step2
  rw [if_pos h]

/-- Witness for C8: sent nonce 1, received nonce 2, trivial crypto
oracles. -/
theorem claim_C8_witness :
    auth_step2 (fun _ => .error .decomposeFailed) (fun _ => .error .noKnownFingerprint)
        (fun _ _ => .error .encryptFailed) (fun _ => []) 0 1 ⟨2, 3, [], []⟩ =
      .error (.nonceMismatch 1 2) :=
  claim_C8 (fun _ => .error .decomposeFailed) (fun _ => .error .noKnownFingerprint)
    (fun _ _ => .error .encryptFailed) (fun _ => []) 0 1 ⟨2, 3, [], []⟩ (by decide)

/-- TL constructor id (src/tl/parsing.rs wrapper around a u32). -/
structure ConstructorId where
  val : Nat
deriving DecidableEq

/-- Boxed vector constructor id `0x1cb5c415` (src/tl/vector.rs, TYPE_ID). -/
def TYPE_ID : ConstructorId := ⟨0x1cb5c415⟩

/-- TL serialization errors (src/tl/vector.rs uses `InvalidData`; the
assert in `SendSlice::serialize` is a panic, modelled as a failure). -/
inductive TlError
  | invalidData
  | shortRead
  | assertionFailed
deriving DecidableEq

/-- Embedding of `SendSlice::serialize` (src/tl/vector.rs, lines 125-132):
assert the element count fits a u32, write the u32 count little-endian,
then every element with the element serializer `enc`. -/
def sendslice_serialize (enc : α → List Nat) (elements : List α) :
    Except TlError (List Nat) :=
  if elements.length ≤ 0xffffffff then
    .ok (le32 elements.length ++ (elements.map enc).flatten)
  else .error .assertionFailed

/-- Boxed serialization of `Vector<T>`: the writer framework (tl/parsing,
outside src/) emits the constructor id of a boxed type before
`Vector::serialize` runs, which delegates to `SendSlice::serialize`.
Modelled from the spec (§4.1): boxed values prepend their 32-bit
constructor id. -/
def vector_serialize_boxed (enc : α → List Nat) (elements : List α) :
    Except TlError (List Nat) :=
  match sendslice_serialize enc elements with
  | .error e => .error e
  | .ok body => .ok (le32 TYPE_ID.val ++ body)

/-- Little-endian u32 read, `reader.read_u32::<LittleEndian>()`. -/
def read_u32_le : List Nat → Except TlError (Nat × List Nat)
  | b0 :: b1 :: b2 :: b3 :: rest =>
    .ok (b0 + 256 * b1 + 65536 * b2 + 16777216 * b3, rest)
  | _ => .error .shortRead

/-- Count-many `reader.read_generic()` calls with element decoder
`dec`, the loop body of `Vector::deserialize`. -/
def read_elems (dec : List Nat → Except TlError (α × List Nat)) :
    Nat → List Nat → Except TlError (List α × List Nat)
  | 0, bytes => .ok ([], bytes)
  | n + 1, bytes =>
    match dec bytes with
    | .error e => .error e
    | .ok (x, rest) =>
      match read_elems dec n rest with
      | .error e => .error e
      | .ok (xs, rest2) => .ok (x :: xs, rest2)

/-- Embedding of `Vector::deserialize` (src/tl/vector.rs, lines 50-57):
read the u32 element count, then that many elements. -/
def vector_deserialize (dec : List Nat → Except TlError (α × List Nat))
    (bytes : List Nat) : Except TlError (List α × List Nat) :=
  match read_u32_le bytes with
  | .error e => .error e
  | .ok (count, rest) => read_elems dec count rest

/-- Embedding of `Vector::deserialize_boxed` (src/tl/vector.rs, lines
59-65): any constructor id other than `TYPE_ID` is rejected with
`InvalidData`; otherwise defer to `Vector::deserialize`. -/
def vector_deserialize_boxed (dec : List Nat → Except TlError (α × List Nat))
    (id : ConstructorId) (bytes : List Nat) : Except TlError (List α × List Nat) :=
  if id ≠ TYPE_ID then .error .invalidData
  else vector_deserialize dec bytes

theorem read_u32_le_le32 (n : Nat) (rest : List Nat) (h : n < 2 ^ 32) :
    read_u32_le (le32 n ++ rest) = .ok (n, rest) := by
  show Except.ok (n % 256 + 256 * (n / 256 % 256) + 65536 * (n / 65536 % 256)
    + 16777216 * (n / 16777216 % 256), rest) = Except.ok (n, rest)
  congr 2
  omega

theorem read_elems_roundtrip (enc : α → List Nat)
    (dec : List Nat → Except TlError (α × List Nat))
    (hrt : ∀ (x : α) (rest : List Nat), dec (enc x ++ rest) = .ok (x, rest)) :
    ∀ (v : List α) (rest : List Nat),
      read_elems dec v.length ((v.map enc).flatten ++ rest) = .ok (v, rest) := by
  intro v
  induction v with
  | nil =>
    intro rest
    simp [read_elems]
  | cons x xs ih =>
    intro rest
    have he : ((x :: xs).map enc).flatten ++ rest = enc x ++ ((xs.map enc).flatten ++ rest) := by
      simp
    rw [List.length_cons, he]
    simp only [read_elems, hrt x, ih rest]

/-- C9: for every `Vector<T>` value with at most `u32::MAX` elements whose
element type round-trips, serialization produces the constructor id
0x1cb5c415, then the u32 element count, then the encoded elements; feeding
that count-and-elements stream back to `deserialize_boxed` under the
vector constructor id returns the original elements, and any other
constructor id is rejected with `InvalidData`. -/
theorem claim_C9 (enc : α → List Nat) (dec : List Nat → Except TlError (α × List Nat))
    (hrt : ∀ (x : α) (rest : List Nat), dec (enc x ++ rest) = .ok (x, rest))
    (v : List α) (hlen : v.length ≤ 0xffffffff) (id : ConstructorId) :
    vector_serialize_boxed enc v =
      .ok (le32 TYPE_ID.val ++ (le32 v.length ++ (v.map enc).flatten)) ∧
    vector_deserialize_boxed dec TYPE_ID (le32 v.length ++ (v.map enc).flatten) =
      .ok (v, []) ∧
    (id ≠ TYPE_ID →
      vector_deserialize_boxed dec id (le32 v.length ++ (v.map enc).flatten) =
        .error .invalidData) := by
  refine ⟨?_, ?_, ?_⟩
  · unfold vector_serialize_boxed sendslice_serialize
    rw [if_pos hlen]
  · unfold vector_deserialize_boxed vector_deserialize
    rw [if_neg (by simp), read_u32_le_le32 v.length (v.map enc).flatten (by omega)]
    have h := read_elems_roundtrip enc dec hrt v []
    rw [List.append_nil] at h
    exact h
  · intro hid
    unfold vector_deserialize_boxed
    rw [if_pos hid]

/-- Element encoder for the C9 witness: one abstract byte per number. -/
def encW : Nat → List Nat := fun x => [x]

/-- Element decoder for the C9 witness, inverse of `encW`. -/
def decW : List Nat → Except TlError (Nat × List Nat)
  | [] => .error .shortRead
  | x :: rest => .ok (x, rest)

/-- Witness for C9: the two-element vector `[5, 7]` under the witness
codec, against the foreign constructor id 0. -/
theorem claim_C9_witness :
    vector_serialize_boxed encW [5, 7] =
      .ok (le32 TYPE_ID.val ++ (le32 ([5, 7] : List Nat).length ++ (([5, 7] : List Nat).map encW).flatten)) ∧
    vector_deserialize_boxed decW TYPE_ID
        (le32 ([5, 7] : List Nat).length ++ (([5, 7] : List Nat).map encW).flatten) =
      .ok ([5, 7], []) ∧
    ((⟨0⟩ : ConstructorId) ≠ TYPE_ID →
      vector_deserialize_boxed decW ⟨0⟩
          (le32 ([5, 7] : List Nat).length ++ (([5, 7] : List Nat).map encW).flatten) =
        .error .invalidData) :=
  claim_C9 encW decW (fun x rest => rfl) [5, 7] (by norm_num) ⟨0⟩

end Mtproto
